import Mathlib

/-
Verification of the order-lifecycle orchestration engine of the trading-bot
repository (src/utils.py, src/api.py, src/topstep_ws.py, src/server.py).

Shallow embedding conventions:
* Prices are rationals (ℚ); the Python floats appearing in the verified
  claims (multiples of 0.05) are exactly representable, and every arithmetic
  step the claims exercise is exact in binary floating point as well.
* Machine ints (sizes, ids, milliseconds, net positions) are ℤ.
* JSON orders carry alternate field spellings in the source
  (`id`/`orderId`, `limitPrice`/`price`, `contractId`/`contract.id`);
  each pair denotes one datum and is collapsed to a single field here.
* Effectful broker calls are modelled by an environment record holding the
  response each call would produce on this tick, and by an emitted trace of
  `BrokerCall` / `ServerCall` values recording which calls were made.
-/

set_option maxRecDepth 40000

-- ── utils.py ──────────────────────────────────────────────────────────────────

/-- Python's built-in `round` on the exact value: round half to even. -/
def pyRound (q : ℚ) : ℤ :=
  let n := ⌊q⌋
  let frac := q - (n : ℚ)
  if frac < 1/2 then n
  else if 1/2 < frac then n + 1
  else if n % 2 = 0 then n else n + 1

/-- TICK_SIZE from utils.py (NQ tick size 0.25). -/
def TICK_SIZE : ℚ := 1/4

/-- utils.round_to_tick: `ticks = round(price / tick_size); ticks * tick_size`.
The source then reformats the result to two decimals, which is the identity
for tick size 0.25 since every multiple of 1/4 has at most two decimals. -/
def round_to_tick (price : ℚ) : ℚ :=
  (pyRound (price / TICK_SIZE) : ℚ) * TICK_SIZE

-- ── api.py: orders and reconciliation ────────────────────────────────────────

/-- An open order as returned by Order/searchOpen.  `type` 1 = limit,
2 = market, 4 = stop market, 5 = trailing stop. -/
structure Order where
  id : ℤ
  contractId : String
  type : ℤ
  side : ℤ
  size : ℤ
  limitPrice : ℚ
deriving DecidableEq

/-- api._orders_equal_price: `abs(a - b) <= tick / 2.0`. -/
def _orders_equal_price (a b tick : ℚ) : Bool :=
  decide (|a - b| ≤ tick / 2)

/-- The per-order test of api._reconcile_limit_order's loop: same contract,
limit type, same side, same size, price within half a tick. -/
def reconcileMatch (contract_id : String) (side size : ℤ) (price : ℚ)
    (o : Order) : Bool :=
  o.contractId == contract_id && o.type == 1 && o.side == side &&
    o.size == size && _orders_equal_price o.limitPrice price TICK_SIZE

/-- api._reconcile_limit_order applied to the open orders returned by a
successful search: return the first order matching the submitted intent. -/
def _reconcile_limit_order (orders : List Order) (contract_id : String)
    (side size : ℤ) (price : ℚ) : Option Order :=
  orders.find? (reconcileMatch contract_id side size price)

/-- Outcome of place_limit_order's ReadTimeout handler. -/
inductive SubmitOutcome where
  | landed (o : Order)
  | timeout
deriving DecidableEq

/-- place_limit_order's ReadTimeout branch: reconcile against open orders and
return the matched order, else re-raise the timeout to the caller. -/
def resolve_submit_timeout (orders : List Order) (contract_id : String)
    (side size : ℤ) (price : ℚ) : SubmitOutcome :=
  match _reconcile_limit_order orders contract_id side size price with
  | some o => .landed o
  | none => .timeout

/-- The matching test of §4.6 of the design document, written from its words:
same instrument, a limit order, same side and size, price within half a tick
(1/8 for tick 1/4).  Compared against the source-derived `reconcileMatch`. -/
def specMatch (contract_id : String) (side size : ℤ) (price : ℚ)
    (o : Order) : Prop :=
  o.contractId = contract_id ∧ o.type = 1 ∧ o.side = side ∧ o.size = size ∧
    |o.limitPrice - price| ≤ 1/8

-- ── topstep_ws.py: QuoteBus ──────────────────────────────────────────────────

/-- QuoteBus state: connection handle (none when absent), connected flag,
listener callbacks (abstracted to ids), last tick timestamp in ms. -/
structure QuoteBusState where
  hub : Option ℤ
  connected : Bool
  listeners : List ℤ
  last_tick_ms : ℤ
deriving DecidableEq

/-- Externally visible effects of QuoteBus.start: stopping the stale hub, and
creating plus starting a hub connection (whose on-open handler performs the
SubscribeContractTrades call). -/
inductive BusAction where
  | stopHub
  | openConnection (h : ℤ)
deriving DecidableEq

/-- QuoteBus.is_connected: `bool(self.hub) and self.connected`. -/
def QuoteBus.is_connected (s : QuoteBusState) : Bool :=
  s.hub.isSome && s.connected

/-- QuoteBus.start.  `newHub` is the handle the HubConnectionBuilder would
return if a connection is built on this call.  Mirrors the source: an early
return when a hub exists and is connected; a stop of the stale hub when one
exists but is disconnected; then building and starting a fresh hub.
The connected flag is only set later by the on-open handler. -/
def QuoteBus.start (newHub : ℤ) (s : QuoteBusState) :
    QuoteBusState × List BusAction :=
  if s.hub.isSome && s.connected then (s, [])
  else if s.hub.isSome && !s.connected then
    ({ s with hub := some newHub }, [.stopHub, .openConnection newHub])
  else
    ({ s with hub := some newHub }, [.openConnection newHub])

-- ── topstep_ws.py: trigger watcher ───────────────────────────────────────────

/-- The immutable arguments of watch_trigger_and_place_trailer. -/
structure WatcherParams where
  side : ℤ
  size : ℤ
  entry_order_id : ℤ
  trigger_price : ℚ
  atr_points : ℚ
  stop_loss_price : Option ℚ
  baseline_net : ℤ
deriving DecidableEq

/-- The mutable (nonlocal) variables of the watcher closure plus the `done`
threading.Event. -/
structure WatcherState where
  entry_still_open : Bool
  last_orders_check_ms : ℤ
  orders_backoff_until_ms : ℤ
  static_stop_id : Option ℤ
  trailing_order_id : Option ℤ
  done : Bool
deriving DecidableEq

/-- Broker calls a single listener invocation can make. -/
inductive BrokerCall where
  | searchOpen
  | placeStopLoss (side size : ℤ) (price : ℚ)
  | placeTrailingStop (side size : ℤ) (price : ℚ)
  | cancelOrder (oid : ℤ)
deriving DecidableEq

/-- Result of the throttled search_open_orders poll in listener section 0:
a successful order list, an HTTP 429 rate-limit error, or any other error. -/
inductive OrdersPoll where
  | ok (orders : List Order)
  | rateLimited
  | otherError
deriving DecidableEq

/-- One observation of _grace_confirm_fill's poll loop: the value
_entry_open_now() returns and the value _position_net() returns. -/
structure Poll where
  stillOpen : Bool
  net : ℤ
deriving DecidableEq

/-- Outcome of the place_trailing_stop call: `raised` when the call throws
(the exception propagates out of the listener), else the id found in the
response (`resp.get("orderId") or resp.get("id")`, none when absent). -/
inductive TrailResp where
  | raised
  | ok (oid : Option ℤ)
deriving DecidableEq

/-- Broker responses for one listener invocation.  `doneSetDuringGrace`
records whether the cooperative cancellation event was set by another thread
while _grace_confirm_fill was sleeping: it is part of the world state the
listener could observe after its confirmation wait. -/
structure TickEnv where
  now_ms : ℤ
  poll : OrdersPoll
  staticResp1 : Option ℤ
  gracePolls : List Poll
  doneSetDuringGrace : Bool
  entryOpenAfterGrace : Bool
  staticResp2 : Option ℤ
  trailResp : TrailResp
  cancelStaticOk : Bool
deriving DecidableEq

/-- The open-orders membership test of listener section 0:
`(o.get("id") == entry_order_id or o.get("orderId") == entry_order_id) and
o.get("type") == 1`. -/
def entryMatches (entry_order_id : ℤ) (o : Order) : Bool :=
  o.id == entry_order_id && o.type == 1

/-- The function _grace_confirm_fill: scan the poll observations of the bounded window in
order; confirmed as soon as the order is gone from open orders, or net
position moved off baseline and is at least 1 in magnitude; unconfirmed when
the window ends first. -/
def _grace_confirm_fill (baseline_net : ℤ) : List Poll → Bool
  | [] => false
  | q :: qs =>
    if !q.stillOpen || (!(q.net == baseline_net) && decide (1 ≤ |q.net|)) then
      true
    else
      _grace_confirm_fill baseline_net qs

/-- Listener section 0: the throttled open-orders check.  Runs only when
now is past the backoff deadline and at least 500 ms past the last check;
records the check time, then updates entry_still_open on success, sets a
3000 ms backoff on HTTP 429, and leaves state otherwise unchanged on other
errors. -/
def sec0 (p : WatcherParams) (env : TickEnv) (s : WatcherState) :
    WatcherState × List BrokerCall :=
  if decide (s.orders_backoff_until_ms ≤ env.now_ms) &&
      decide ((500 : ℤ) ≤ env.now_ms - s.last_orders_check_ms) then
    let s1 := { s with last_orders_check_ms := env.now_ms }
    match env.poll with
    | .ok orders =>
      ({ s1 with entry_still_open := orders.any (entryMatches p.entry_order_id) },
        [.searchOpen])
    | .rateLimited =>
      ({ s1 with orders_backoff_until_ms := env.now_ms + 3000 }, [.searchOpen])
    | .otherError => (s1, [.searchOpen])
  else (s, [])

/-- Listener static-stop placement after section 0: if the entry left open
orders, a stop-loss price is configured and no static stop exists, place the
stop-market order on the opposite side (placement failure leaves the id
none). -/
def staticAfterPoll (p : WatcherParams) (env : TickEnv) (s : WatcherState) :
    WatcherState × List BrokerCall :=
  match p.stop_loss_price with
  | some sl =>
    if !s.entry_still_open && s.static_stop_id.isNone then
      ({ s with static_stop_id := env.staticResp1 },
        [.placeStopLoss (1 - p.side) p.size sl])
    else (s, [])
  | none => (s, [])

/-- Listener section 1 condition:
`(side == 0 and last_price <= stop) or (side == 1 and last_price >= stop)`. -/
def stop_hit (p : WatcherParams) (last_price : ℚ) : Bool :=
  match p.stop_loss_price with
  | some sl =>
    (p.side == 0 && decide (last_price ≤ sl)) ||
      (p.side == 1 && decide (sl ≤ last_price))
  | none => false

/-- Listener section 2 condition:
`(side == 0 and last_price >= trigger) or (side == 1 and last_price <= trigger)`. -/
def trigger_hit (p : WatcherParams) (last_price : ℚ) : Bool :=
  (p.side == 0 && decide (p.trigger_price ≤ last_price)) ||
    (p.side == 1 && decide (last_price ≤ p.trigger_price))

/-- Listener section 1 body: cancel the entry if the watcher still believes
it open, cancel an already-placed trailing stop (Python truthiness: a zero id
is falsy), set the done event, return. -/
def stopHitPath (p : WatcherParams) (s : WatcherState) :
    WatcherState × List BrokerCall :=
  ({ s with done := true },
    (if s.entry_still_open then [BrokerCall.cancelOrder p.entry_order_id]
     else []) ++
    (match s.trailing_order_id with
     | some tid => if tid == 0 then [] else [BrokerCall.cancelOrder tid]
     | none => []))

/-- The trailing reference price of listener line 303:
`round_to_tick(last_price - atr_points + 0.25 if side == 0
else last_price + atr_points - 0.25)`. -/
def trail_price (p : WatcherParams) (last_price : ℚ) : ℚ :=
  round_to_tick (if p.side == 0 then last_price - p.atr_points + 1/4
                 else last_price + p.atr_points - 1/4)

/-- Listener tail: place the trailing stop, record its id, and if a static
stop is active (truthy id) cancel it, clearing the stored id only when the
cancel succeeds; finally set done.  When place_trailing_stop raises, the
exception leaves the listener before done is set. -/
def placeTrailer (p : WatcherParams) (env : TickEnv) (s : WatcherState)
    (last_price : ℚ) : WatcherState × List BrokerCall :=
  let call := BrokerCall.placeTrailingStop (1 - p.side) p.size
    (trail_price p last_price)
  match env.trailResp with
  | .raised => (s, [call])
  | .ok idOpt =>
    let s1 := { s with trailing_order_id := idOpt }
    match s1.static_stop_id with
    | some sid =>
      if sid == 0 then ({ s1 with done := true }, [call])
      else if env.cancelStaticOk then
        ({ s1 with static_stop_id := none, done := true },
          [call, .cancelOrder sid])
      else ({ s1 with done := true }, [call, .cancelOrder sid])
    | none => ({ s1 with done := true }, [call])

/-- The static-stop placement inside the grace-confirmed branch: keyed on
_entry_open_now() re-queried after the wait, not on the cached flag. -/
def graceStatic (p : WatcherParams) (env : TickEnv) (s : WatcherState) :
    WatcherState × List BrokerCall :=
  match p.stop_loss_price with
  | some sl =>
    if !env.entryOpenAfterGrace && s.static_stop_id.isNone then
      ({ s with static_stop_id := env.staticResp2 },
        [.placeStopLoss (1 - p.side) p.size sl])
    else (s, [])
  | none => (s, [])

/-- Listener section 2 body, entered when the trigger condition holds: if the
entry is still believed open, run the bounded confirmation wait; when it
confirms, possibly place the pending static stop and fall through to the
trailing placement (the done event is not re-examined after the wait); when
it does not, cancel the entry and terminate. -/
def triggerPath (p : WatcherParams) (env : TickEnv) (s : WatcherState)
    (last_price : ℚ) : WatcherState × List BrokerCall :=
  if s.entry_still_open then
    if _grace_confirm_fill p.baseline_net env.gracePolls then
      let r1 := graceStatic p env s
      let r2 := placeTrailer p env r1.1 last_price
      (r2.1, r1.2 ++ r2.2)
    else
      ({ s with done := true }, [BrokerCall.cancelOrder p.entry_order_id])
  else
    placeTrailer p env s last_price

/-- The tick listener of watch_trigger_and_place_trailer: an early return
when the done event is already set, then section 0 (throttled fill poll),
the static-stop placement, section 1 (stop-hit, which wins over the trigger
on the same tick), and section 2 (trigger and trailing placement). -/
def _listener (p : WatcherParams) (env : TickEnv) (s : WatcherState)
    (last_price : ℚ) : WatcherState × List BrokerCall :=
  if s.done then (s, [])
  else
    let r0 := sec0 p env s
    let r1 := staticAfterPoll p env r0.1
    if stop_hit p last_price then
      let r2 := stopHitPath p r1.1
      (r2.1, r0.2 ++ r1.2 ++ r2.2)
    else if trigger_hit p last_price then
      let r2 := triggerPath p env r1.1 last_price
      (r2.1, r0.2 ++ r1.2 ++ r2.2)
    else (r1.1, r0.2 ++ r1.2)

/-- Deliver a sequence of ticks to the listener, accumulating the broker
calls made. -/
def runTicks (p : WatcherParams) : List (TickEnv × ℚ) → WatcherState →
    WatcherState × List BrokerCall
  | [], s => (s, [])
  | (env, lp) :: rest, s =>
    let r := _listener p env s lp
    let r' := runTicks p rest r.1
    (r'.1, r.2 ++ r'.2)

-- ── server.py: webhook ───────────────────────────────────────────────────────

/-- A parsed TradingView alert (parse_tv_alert result).  The text parsing is
outside the verified core; `isClose` and `isExit` stand for the substring
tests `"close" in comment.lower()` and `"exit" in comment.lower()`. -/
structure Signal where
  direction : String
  size : ℤ
  entryPrice : ℚ
  atr : Option ℚ
  ts_ms : Option ℤ
  stopLoss : Option ℚ
  isClose : Bool
  isExit : Bool
deriving DecidableEq

/-- Per-instrument holdoff state: config.close_holdoff_until_ms (dict lookup
with default 0) and config.last_close_ts_ms (dict lookup, absent = none),
restricted to the instrument the signal resolves to. -/
structure HoldoffState where
  close_holdoff_until_ms : ℤ
  last_close_ts_ms : Option ℤ
deriving DecidableEq

/-- Outcome of the place_limit_order call as the webhook sees it: an order id,
a ReadTimeout that reconciliation could not resolve, or any other failure
(including a response without an order id). -/
inductive LimitOutcome where
  | ok (oid : ℤ)
  | timeoutUnreconciled
  | failed
deriving DecidableEq

/-- Environment of one webhook invocation: whether the CME pause test
is_trading_paused() holds, the current time, whether the flatten verified
flat on first wait, the broker net position (0 when the query raised), and
the limit-order submission outcome. -/
structure WebhookEnv where
  paused : Bool
  now_ms : ℤ
  flatAfterClose : Bool
  net : ℤ
  limitOutcome : LimitOutcome
deriving DecidableEq

/-- Broker/registry operations the webhook performs, in order. -/
inductive ServerCall where
  | cancelWatchersCall
  | cancelOpenOrdersCall
  | closeContractCall
  | startQuarantine
  | cancelTrailingStopsCall
  | cancelStopMarketsCall
  | placeMarketOrderCall (side size : ℤ)
  | placeLimitOrderCall (side size : ℤ) (price : ℚ)
deriving DecidableEq

/-- The webhook's JSON response, reduced to its status/reason discriminant. -/
inductive WebhookResult where
  | skippedPause
  | closeDone
  | skippedExit
  | errAtrMissing
  | errDirection
  | errSize
  | errEntryPrice
  | skippedStaleVsClose
  | skippedInCloseHoldoff
  | entryOk (oid : Option ℤ)
  | errTimeoutUnconfirmed
  | errLimitFailed
deriving DecidableEq

/-- config.close_holdoff_ms. -/
def close_holdoff_ms : ℤ := 1500

/-- FAILSAFE A of the entry path: drop when the signal carries a timestamp
and the recorded last close timestamp is at least it. -/
def staleCheck (sig : Signal) (st : HoldoffState) : Bool :=
  match sig.ts_ms, st.last_close_ts_ms with
  | some ts, some lc => decide (ts ≤ lc)
  | _, _ => false

/-- The close path of the webhook: cancel trailing watchers, set the holdoff
deadline to now plus the fixed duration and record the close's timestamp when
present (both while still holding the per-symbol lock), cancel all open
orders for the contract, flatten (twice when the first wait_until_flat does
not verify flat), and spawn the post-close quarantine. -/
def closePath (env : WebhookEnv) (st : HoldoffState) (sig : Signal) :
    HoldoffState × WebhookResult × List ServerCall :=
  let st1 : HoldoffState :=
    { close_holdoff_until_ms := env.now_ms + close_holdoff_ms
      last_close_ts_ms :=
        match sig.ts_ms with
        | some t => some t
        | none => st.last_close_ts_ms }
  let closes := if env.flatAfterClose then [ServerCall.closeContractCall]
                else [ServerCall.closeContractCall, ServerCall.closeContractCall]
  (st1, .closeDone,
    [ServerCall.cancelWatchersCall, ServerCall.cancelOpenOrdersCall] ++ closes ++
      [ServerCall.startQuarantine])

/-- The side encoding `side = 0 if direction == "buy" else 1`. -/
def sideOf (sig : Signal) : ℤ :=
  if sig.direction == "buy" then 0 else 1

/-- The flip-safety split of the entry path: on size == 8, a flat book (net
position 0) downgrades the signal to a plain size-4 entry; a nonzero net
cancels the trailing watchers, the trailing stops and the stop markets for
the contract and fires a size-4 market order, leaving a size-4 remainder for
the limit entry (also on market-leg failure).  Returns the limit size and the
calls made. -/
def entryFlip (env : WebhookEnv) (sig : Signal) (side : ℤ) :
    ℤ × List ServerCall :=
  if sig.size == 8 then
    if env.net == 0 then (4, [])
    else
      (4, [ServerCall.cancelWatchersCall, ServerCall.cancelTrailingStopsCall,
           ServerCall.cancelStopMarketsCall,
           ServerCall.placeMarketOrderCall side 4])
  else (sig.size, [])

/-- The tail of the entry path after both failsafes pass: flip-safety split,
then the limit order at the tick-rounded entry price when a remainder is
left.  On success the trigger watcher is scheduled and the ok response
returned; submission failures surface as error responses. -/
def entryExec (env : WebhookEnv) (st : HoldoffState) (sig : Signal) :
    HoldoffState × WebhookResult × List ServerCall :=
  if decide (0 < (entryFlip env sig (sideOf sig)).1) then
    match env.limitOutcome with
    | .ok oid =>
      (st, .entryOk (some oid),
        (entryFlip env sig (sideOf sig)).2 ++
          [ServerCall.placeLimitOrderCall (sideOf sig)
            (entryFlip env sig (sideOf sig)).1 (round_to_tick sig.entryPrice)])
    | .timeoutUnreconciled =>
      (st, .errTimeoutUnconfirmed,
        (entryFlip env sig (sideOf sig)).2 ++
          [ServerCall.placeLimitOrderCall (sideOf sig)
            (entryFlip env sig (sideOf sig)).1 (round_to_tick sig.entryPrice)])
    | .failed =>
      (st, .errLimitFailed,
        (entryFlip env sig (sideOf sig)).2 ++
          [ServerCall.placeLimitOrderCall (sideOf sig)
            (entryFlip env sig (sideOf sig)).1 (round_to_tick sig.entryPrice)])
  else (st, .entryOk none, (entryFlip env sig (sideOf sig)).2)

/-- The webhook handler for one parsed signal, from the CME-pause gate on:
the close path, the ignored exit path, the entry validations, FAILSAFE A
(timestamp staleness), FAILSAFE B (close holdoff), and the entry execution.
The whole body from the close test on runs under the instrument's
per-symbol lock. -/
def webhook (env : WebhookEnv) (st : HoldoffState) (sig : Signal) :
    HoldoffState × WebhookResult × List ServerCall :=
  if env.paused then (st, .skippedPause, [])
  else if sig.isClose then closePath env st sig
  else if sig.isExit then (st, .skippedExit, [])
  else
    match sig.atr with
    | none => (st, .errAtrMissing, [])
    | some _ =>
      if !(sig.direction == "buy" || sig.direction == "sell") then
        (st, .errDirection, [])
      else if decide (sig.size ≤ 0) then (st, .errSize, [])
      else if decide (sig.entryPrice ≤ 0) then (st, .errEntryPrice, [])
      else if staleCheck sig st then (st, .skippedStaleVsClose, [])
      else if decide (env.now_ms < st.close_holdoff_until_ms) then
        (st, .skippedInCloseHoldoff, [])
      else entryExec env st sig

-- ── Concrete fixtures used by witnesses and counterexamples ──────────────────

/-- A connected QuoteBus with one listener attached. -/
def busFix : QuoteBusState :=
  { hub := some 1, connected := true, listeners := [5], last_tick_ms := 0 }

/-- A resting limit order at 21000 that a submission timeout at 21000.10
should reconcile against. -/
def orderFix : Order :=
  { id := 1, contractId := "X", type := 1, side := 0, size := 2,
    limitPrice := 21000 }

/-- A long watcher whose stop (21000) and trigger (20990) are both crossed by
a tick at 20995. -/
def pStopFix : WatcherParams :=
  { side := 0, size := 2, entry_order_id := 11, trigger_price := 20990,
    atr_points := 10, stop_loss_price := some 21000, baseline_net := 0 }

/-- A live watcher state: entry believed open, a trailing stop id 7 already
recorded, not done. -/
def sStopFix : WatcherState :=
  { entry_still_open := true, last_orders_check_ms := 0,
    orders_backoff_until_ms := 0, static_stop_id := none,
    trailing_order_id := some 7, done := false }

/-- A tick environment whose poll is not due (now 100 is 100 ms past the last
check, under the 500 ms throttle). -/
def envStopFix : TickEnv :=
  { now_ms := 100, poll := .otherError, staticResp1 := none, gracePolls := [],
    doneSetDuringGrace := false, entryOpenAfterGrace := true,
    staticResp2 := none, trailResp := .ok (some 99), cancelStaticOk := true }

/-- A long watcher with trigger 21045 and no stop loss. -/
def pTrailFix : WatcherParams :=
  { side := 0, size := 3, entry_order_id := 9, trigger_price := 21045,
    atr_points := 10, stop_loss_price := none, baseline_net := 0 }

/-- A short watcher with trigger 21055 and no stop loss. -/
def pTrailShortFix : WatcherParams :=
  { side := 1, size := 3, entry_order_id := 9, trigger_price := 21055,
    atr_points := 10, stop_loss_price := none, baseline_net := 0 }

/-- A watcher state that already saw its entry leave the open orders. -/
def sTrailFix : WatcherState :=
  { entry_still_open := false, last_orders_check_ms := 0,
    orders_backoff_until_ms := 0, static_stop_id := none,
    trailing_order_id := none, done := false }

/-- An environment where the trailing placement succeeds with order id 77. -/
def envTrailFix : TickEnv :=
  { now_ms := 0, poll := .otherError, staticResp1 := none, gracePolls := [],
    doneSetDuringGrace := false, entryOpenAfterGrace := true,
    staticResp2 := none, trailResp := .ok (some 77), cancelStaticOk := true }

/-- A long watcher with trigger 21010 and no stop loss. -/
def pCancelFix : WatcherParams :=
  { side := 0, size := 2, entry_order_id := 5, trigger_price := 21010,
    atr_points := 10, stop_loss_price := none, baseline_net := 0 }

/-- A live watcher state with the entry believed open. -/
def sCancelFix : WatcherState :=
  { entry_still_open := true, last_orders_check_ms := 0,
    orders_backoff_until_ms := 0, static_stop_id := none,
    trailing_order_id := none, done := false }

/-- An environment in which the confirmation wait confirms the fill on its
first poll, and the cancellation event is set by cancel_trailing_watchers
while that wait is sleeping. -/
def envCancelFix : TickEnv :=
  { now_ms := 100, poll := .otherError, staticResp1 := none,
    gracePolls := [{ stillOpen := false, net := 0 }],
    doneSetDuringGrace := true, entryOpenAfterGrace := false,
    staticResp2 := none, trailResp := .ok (some 99), cancelStaticOk := true }

/-- A long watcher whose trigger 30000 is far above every test tick. -/
def pRateFix : WatcherParams :=
  { side := 0, size := 1, entry_order_id := 5, trigger_price := 30000,
    atr_points := 10, stop_loss_price := none, baseline_net := 0 }

/-- A fresh watcher state with the poll immediately due. -/
def sRateFix : WatcherState :=
  { entry_still_open := true, last_orders_check_ms := 0,
    orders_backoff_until_ms := 0, static_stop_id := none,
    trailing_order_id := none, done := false }

/-- A tick at t = 1000 ms whose open-orders poll answers HTTP 429. -/
def envRateFix1 : TickEnv :=
  { now_ms := 1000, poll := .rateLimited, staticResp1 := none,
    gracePolls := [], doneSetDuringGrace := false,
    entryOpenAfterGrace := true, staticResp2 := none, trailResp := .raised,
    cancelStaticOk := true }

/-- A tick at t = 4000 ms (the first instant the backoff allows a new poll)
whose open-orders poll again answers HTTP 429. -/
def envRateFix2 : TickEnv :=
  { envRateFix1 with now_ms := 4000 }

/-- First rate-limited tick delivered to the fresh watcher. -/
def rateRun1 : WatcherState × List BrokerCall :=
  _listener pRateFix envRateFix1 sRateFix 100

/-- Second rate-limited tick, delivered right when the first backoff ends. -/
def rateRun2 : WatcherState × List BrokerCall :=
  _listener pRateFix envRateFix2 rateRun1.1 100

/-- Holdoff state during a live holdoff window (until t = 10000) with a
recorded close timestamp 5000. -/
def stHoldFix : HoldoffState :=
  { close_holdoff_until_ms := 10000, last_close_ts_ms := some 5000 }

/-- Pristine holdoff state: no holdoff, no recorded close. -/
def st0Fix : HoldoffState :=
  { close_holdoff_until_ms := 0, last_close_ts_ms := none }

/-- Holdoff state with an expired window but a recorded close timestamp. -/
def stCloseTsFix : HoldoffState :=
  { close_holdoff_until_ms := 0, last_close_ts_ms := some 5000 }

/-- A webhook environment at t = 2000, flat net book, limit order accepted. -/
def envWebFix : WebhookEnv :=
  { paused := false, now_ms := 2000, flatAfterClose := true, net := 0,
    limitOutcome := .ok 42 }

/-- Same environment with a long net position of 2. -/
def envWebNetFix : WebhookEnv :=
  { envWebFix with net := 2 }

/-- A valid buy entry carrying timestamp 4000 (older than close ts 5000). -/
def sigStaleEntryFix : Signal :=
  { direction := "buy", size := 1, entryPrice := 21000, atr := some 7,
    ts_ms := some 4000, stopLoss := none, isClose := false, isExit := false }

/-- The same entry without a timestamp. -/
def sigEntryFix : Signal :=
  { sigStaleEntryFix with ts_ms := none }

/-- A close signal carrying timestamp 7777. -/
def sigCloseFix : Signal :=
  { direction := "sell", size := 1, entryPrice := 21000, atr := none,
    ts_ms := some 7777, stopLoss := none, isClose := true, isExit := false }

/-- A sell entry of size 8 (the reversal size). -/
def sigFlipFix : Signal :=
  { direction := "sell", size := 8, entryPrice := 21000, atr := some 7,
    ts_ms := none, stopLoss := none, isClose := false, isExit := false }

-- ── Helper lemmas ────────────────────────────────────────────────────────────

/-- The source-derived order-matching test agrees with the spec wording of
§4.6 (same instrument, limit order, same side and size, price within 1/8). -/
theorem reconcileMatch_iff (cid : String) (sd sz : ℤ) (pr : ℚ) (o : Order) :
    reconcileMatch cid sd sz pr o = true ↔ specMatch cid sd sz pr o := by
  have h48 : (TICK_SIZE / 2 : ℚ) = 1/8 := by norm_num [TICK_SIZE]
  simp [reconcileMatch, specMatch, _orders_equal_price, h48, and_assoc]

theorem resolve_timeout_iff_none (orders : List Order) (cid : String)
    (sd sz : ℤ) (pr : ℚ) :
    resolve_submit_timeout orders cid sd sz pr = .timeout ↔
      _reconcile_limit_order orders cid sd sz pr = none := by
  unfold resolve_submit_timeout
  cases h : _reconcile_limit_order orders cid sd sz pr <;> simp

theorem grace_eq_any (b : ℤ) (polls : List Poll) :
    _grace_confirm_fill b polls =
      polls.any fun q => !q.stillOpen || (!(q.net == b) && decide (1 ≤ |q.net|)) := by
  induction polls with
  | nil => rfl
  | cons q qs ih =>
    rw [_grace_confirm_fill, List.any_cons]
    by_cases h : (!q.stillOpen || (!(q.net == b) && decide (1 ≤ |q.net|))) = true
    · simp [h]
    · simp only [Bool.not_eq_true] at h
      simp [h, ih]

-- ── C8 ───────────────────────────────────────────────────────────────────────

/-- C8: QuoteStream start() is idempotent while connected: when the stream is
already connected, start() opens no second connection, makes no second
subscription call, and leaves the whole state (hub handle, connected flag,
listener list, last-tick timestamp) unchanged. -/
theorem start_idempotent (s : QuoteBusState) (h : ℤ)
    (hc : QuoteBus.is_connected s = true) :
    QuoteBus.start h s = (s, []) := by
  unfold QuoteBus.is_connected at hc
  unfold QuoteBus.start
  simp [hc]

theorem start_idempotent_witness :
    QuoteBus.is_connected busFix = true
    ∧ QuoteBus.start 2 busFix = (busFix, []) :=
  ⟨rfl, start_idempotent busFix 2 rfl⟩

-- ── C7 (corrected) ───────────────────────────────────────────────────────────

/-- C7 counterexample: with baseline net 1, a poll observing the entry still
open and net position 0 has a net different from baseline, yet
_grace_confirm_fill does not confirm, because the source additionally
requires abs(net) >= 1.  The claim as stated (either signal alone suffices,
net merely differing from baseline) is therefore false at this input. -/
theorem grace_confirm_cex :
    ((0 : ℤ) ≠ 1)
    ∧ _grace_confirm_fill 1 [{ stillOpen := true, net := 0 }] = false := by
  constructor
  · decide
  · with_unfolding_all rfl

/-- C7 amended: the bounded confirmation poll confirms exactly when some poll
within the window observes the entry order absent from open orders, or
observes a net position that differs from the baseline and is at least 1 in
magnitude; otherwise it reports unconfirmed. -/
theorem grace_confirm_iff (b : ℤ) (polls : List Poll) :
    _grace_confirm_fill b polls = true ↔
      ∃ q ∈ polls, q.stillOpen = false ∨ (q.net ≠ b ∧ 1 ≤ |q.net|) := by
  rw [grace_eq_any, List.any_eq_true]
  constructor
  · rintro ⟨q, hq, hcond⟩
    refine ⟨q, hq, ?_⟩
    simpa using hcond
  · rintro ⟨q, hq, hcond⟩
    refine ⟨q, hq, ?_⟩
    simpa using hcond

-- ── C3 ───────────────────────────────────────────────────────────────────────

/-- C3: on a limit-order submission timeout, the reconciliation resolver
returns an open order exactly when one matches the submitted contract, limit
type, side, size and a price within half a tick (1/8 for tick 1/4); any
returned order is such a match; otherwise the timeout propagates to the
caller.  In particular a price difference of 0.10 is within tolerance and a
difference of 0.50 is not. -/
theorem reconcile_resolver_spec (orders : List Order) (cid : String)
    (sd sz : ℤ) (pr : ℚ) :
    ((_reconcile_limit_order orders cid sd sz pr).isSome ↔
      ∃ o ∈ orders, specMatch cid sd sz pr o)
    ∧ (∀ o, _reconcile_limit_order orders cid sd sz pr = some o →
        o ∈ orders ∧ specMatch cid sd sz pr o)
    ∧ (resolve_submit_timeout orders cid sd sz pr = .timeout ↔
        ¬ ∃ o ∈ orders, specMatch cid sd sz pr o)
    ∧ _orders_equal_price 21000 (21000 + 1/10) TICK_SIZE = true
    ∧ _orders_equal_price 21000 (21000 + 1/2) TICK_SIZE = false := by
  have hiff : ((_reconcile_limit_order orders cid sd sz pr).isSome = true ↔
      ∃ o ∈ orders, specMatch cid sd sz pr o) := by
    rw [_reconcile_limit_order, List.find?_isSome]
    constructor
    · rintro ⟨o, ho, hm⟩
      exact ⟨o, ho, (reconcileMatch_iff cid sd sz pr o).mp hm⟩
    · rintro ⟨o, ho, hm⟩
      exact ⟨o, ho, (reconcileMatch_iff cid sd sz pr o).mpr hm⟩
  refine ⟨hiff, ?_, ?_, ?_, ?_⟩
  · intro o ho
    exact ⟨List.mem_of_find?_eq_some ho,
      (reconcileMatch_iff cid sd sz pr o).mp (List.find?_some ho)⟩
  · rw [resolve_timeout_iff_none, ← Option.not_isSome_iff_eq_none]
    exact not_congr hiff
  · with_unfolding_all decide
  · with_unfolding_all decide

theorem reconcile_resolver_spec_witness :
    (_reconcile_limit_order [orderFix] "X" 0 2 (21000 + 1/10)).isSome = true :=
  (reconcile_resolver_spec [orderFix] "X" 0 2 (21000 + 1/10)).1.mpr
    ⟨orderFix, List.mem_singleton.mpr rfl,
      rfl, rfl, rfl, rfl, by with_unfolding_all decide⟩

-- ── Listener stage lemmas ────────────────────────────────────────────────────

theorem sec0_keeps (p : WatcherParams) (env : TickEnv) (s : WatcherState) :
    (sec0 p env s).1.done = s.done
    ∧ (sec0 p env s).1.trailing_order_id = s.trailing_order_id
    ∧ (sec0 p env s).1.static_stop_id = s.static_stop_id := by
  unfold sec0
  split
  · cases env.poll <;> simp
  · simp

theorem sec0_calls (p : WatcherParams) (env : TickEnv) (s : WatcherState) :
    ∀ c ∈ (sec0 p env s).2, c = BrokerCall.searchOpen := by
  unfold sec0
  split
  · cases env.poll <;> simp
  · simp

theorem sec0_rateLimited (p : WatcherParams) (env : TickEnv) (s : WatcherState)
    (hpoll : env.poll = OrdersPoll.rateLimited)
    (hb : s.orders_backoff_until_ms ≤ env.now_ms)
    (ht : (500 : ℤ) ≤ env.now_ms - s.last_orders_check_ms) :
    sec0 p env s =
      ({ s with last_orders_check_ms := env.now_ms,
                orders_backoff_until_ms := env.now_ms + 3000 },
        [BrokerCall.searchOpen]) := by
  have h1 : decide (s.orders_backoff_until_ms ≤ env.now_ms) = true :=
    decide_eq_true hb
  have h2 : decide ((500 : ℤ) ≤ env.now_ms - s.last_orders_check_ms) = true :=
    decide_eq_true ht
  unfold sec0
  rw [hpoll, h1, h2]
  rfl

theorem staticAfterPoll_keeps (p : WatcherParams) (env : TickEnv)
    (s : WatcherState) :
    (staticAfterPoll p env s).1.done = s.done
    ∧ (staticAfterPoll p env s).1.trailing_order_id = s.trailing_order_id
    ∧ (staticAfterPoll p env s).1.entry_still_open = s.entry_still_open
    ∧ (staticAfterPoll p env s).1.orders_backoff_until_ms =
        s.orders_backoff_until_ms := by
  unfold staticAfterPoll
  split
  · split <;> simp
  · simp

theorem staticAfterPoll_calls (p : WatcherParams) (env : TickEnv)
    (s : WatcherState) :
    ∀ c ∈ (staticAfterPoll p env s).2,
      ∃ pr, c = BrokerCall.placeStopLoss (1 - p.side) p.size pr := by
  unfold staticAfterPoll
  split
  · split <;> simp
  · simp

theorem stopHitPath_fst (p : WatcherParams) (s : WatcherState) :
    (stopHitPath p s).1 = { s with done := true } := rfl

theorem stopHitPath_calls (p : WatcherParams) (s : WatcherState) :
    ∀ c ∈ (stopHitPath p s).2, ∃ oid, c = BrokerCall.cancelOrder oid := by
  intro c hc
  unfold stopHitPath at hc
  simp only [List.mem_append] at hc
  rcases hc with hc | hc
  · split at hc
    · simp at hc
      exact ⟨p.entry_order_id, hc⟩
    · simp at hc
  · rcases hct : s.trailing_order_id with _ | tid
    · simp only [hct] at hc
      simp at hc
    · simp only [hct] at hc
      split at hc
      · simp at hc
      · simp at hc
        exact ⟨tid, hc⟩

theorem placeTrailer_keeps (p : WatcherParams) (env : TickEnv)
    (s : WatcherState) (lp : ℚ) :
    (placeTrailer p env s lp).1.orders_backoff_until_ms =
        s.orders_backoff_until_ms
    ∧ (placeTrailer p env s lp).1.entry_still_open = s.entry_still_open := by
  unfold placeTrailer
  cases env.trailResp with
  | raised => simp
  | ok idOpt =>
    cases hs : s.static_stop_id with
    | none => simp [hs]
    | some sid => simp only [hs]; split <;> [simp; split <;> simp]

theorem placeTrailer_mem (p : WatcherParams) (env : TickEnv)
    (s : WatcherState) (lp : ℚ) :
    BrokerCall.placeTrailingStop (1 - p.side) p.size (trail_price p lp) ∈
      (placeTrailer p env s lp).2 := by
  unfold placeTrailer
  cases env.trailResp with
  | raised => simp
  | ok idOpt =>
    cases hs : s.static_stop_id with
    | none => simp [hs]
    | some sid => simp only [hs]; split <;> [simp; split <;> simp]

theorem graceStatic_keeps (p : WatcherParams) (env : TickEnv)
    (s : WatcherState) :
    (graceStatic p env s).1.orders_backoff_until_ms = s.orders_backoff_until_ms
    ∧ (graceStatic p env s).1.entry_still_open = s.entry_still_open := by
  unfold graceStatic
  split
  · split <;> simp
  · simp

theorem triggerPath_keeps (p : WatcherParams) (env : TickEnv)
    (s : WatcherState) (lp : ℚ) :
    (triggerPath p env s lp).1.orders_backoff_until_ms =
        s.orders_backoff_until_ms
    ∧ (triggerPath p env s lp).1.entry_still_open = s.entry_still_open := by
  unfold triggerPath
  split
  · split
    · constructor
      · rw [(placeTrailer_keeps p env (graceStatic p env s).1 lp).1,
          (graceStatic_keeps p env s).1]
      · rw [(placeTrailer_keeps p env (graceStatic p env s).1 lp).2,
          (graceStatic_keeps p env s).2]
    · simp
  · exact placeTrailer_keeps p env s lp

theorem listener_after_sec0 (p : WatcherParams) (env : TickEnv)
    (s : WatcherState) (lp : ℚ) (hdone : s.done = false) :
    (_listener p env s lp).1.orders_backoff_until_ms =
        (sec0 p env s).1.orders_backoff_until_ms
    ∧ (_listener p env s lp).1.entry_still_open =
        (sec0 p env s).1.entry_still_open := by
  unfold _listener
  rw [hdone]
  simp only [Bool.false_eq_true, if_false]
  split
  · constructor
    · rw [stopHitPath_fst]
      exact (staticAfterPoll_keeps p env (sec0 p env s).1).2.2.2
    · rw [stopHitPath_fst]
      exact (staticAfterPoll_keeps p env (sec0 p env s).1).2.2.1
  · split
    · constructor
      · rw [(triggerPath_keeps p env (staticAfterPoll p env (sec0 p env s).1).1 lp).1,
          (staticAfterPoll_keeps p env (sec0 p env s).1).2.2.2]
      · rw [(triggerPath_keeps p env (staticAfterPoll p env (sec0 p env s).1).1 lp).2,
          (staticAfterPoll_keeps p env (sec0 p env s).1).2.2.1]
    · constructor
      · exact (staticAfterPoll_keeps p env (sec0 p env s).1).2.2.2
      · exact (staticAfterPoll_keeps p env (sec0 p env s).1).2.2.1

-- ── C1 ───────────────────────────────────────────────────────────────────────

/-- C1: on any tick delivered to a live listener whose configured stop-loss
level is crossed against the position (price at or below the stop for a long
entry, at or over it for a short entry), the listener takes the stop-hit
path: it terminates (done set), cancels the entry order when still believed
open, cancels a recorded (truthy) trailing stop, and places no trailing stop
on that tick — with no hypothesis on the trigger level, so this holds in
particular when the same tick also crosses the trigger. -/
theorem stop_hit_priority (p : WatcherParams) (env : TickEnv)
    (s : WatcherState) (lp : ℚ)
    (hdone : s.done = false) (hhit : stop_hit p lp = true) :
    (_listener p env s lp).1.done = true
    ∧ (∀ sd sz pr,
        BrokerCall.placeTrailingStop sd sz pr ∉ (_listener p env s lp).2)
    ∧ ((_listener p env s lp).1.entry_still_open = true →
        BrokerCall.cancelOrder p.entry_order_id ∈ (_listener p env s lp).2)
    ∧ (∀ tid, s.trailing_order_id = some tid → tid ≠ 0 →
        BrokerCall.cancelOrder tid ∈ (_listener p env s lp).2)
    ∧ (_listener p env s lp).1.trailing_order_id = s.trailing_order_id := by
  have hL : _listener p env s lp =
      ((stopHitPath p (staticAfterPoll p env (sec0 p env s).1).1).1,
        (sec0 p env s).2 ++ (staticAfterPoll p env (sec0 p env s).1).2 ++
          (stopHitPath p (staticAfterPoll p env (sec0 p env s).1).1).2) := by
    unfold _listener
    rw [hdone, hhit]
    simp
  rw [hL]
  refine ⟨rfl, ?_, ?_, ?_, ?_⟩
  · intro sd sz pr hmem
    simp only [List.mem_append] at hmem
    rcases hmem with (hm | hm) | hm
    · have h := sec0_calls p env s _ hm
      simp at h
    · obtain ⟨pr', h⟩ := staticAfterPoll_calls p env _ _ hm
      simp at h
    · obtain ⟨oid, h⟩ := stopHitPath_calls p _ _ hm
      simp at h
  · intro hopen
    have hopen' : (staticAfterPoll p env (sec0 p env s).1).1.entry_still_open
        = true := hopen
    have hm : BrokerCall.cancelOrder p.entry_order_id ∈
        (stopHitPath p (staticAfterPoll p env (sec0 p env s).1).1).2 := by
      unfold stopHitPath
      simp [hopen']
    exact List.mem_append_right _ hm
  · intro tid htid h0
    have htr : (staticAfterPoll p env (sec0 p env s).1).1.trailing_order_id
        = some tid := by
      rw [(staticAfterPoll_keeps p env (sec0 p env s).1).2.1,
        (sec0_keeps p env s).2.1, htid]
    have h0' : (tid == 0) = false := by simpa using h0
    have hm : BrokerCall.cancelOrder tid ∈
        (stopHitPath p (staticAfterPoll p env (sec0 p env s).1).1).2 := by
      unfold stopHitPath
      simp [htr, h0']
    exact List.mem_append_right _ hm
  · exact ((staticAfterPoll_keeps p env (sec0 p env s).1).2.1).trans
      ((sec0_keeps p env s).2.1)

theorem stop_hit_priority_witness :
    stop_hit pStopFix 20995 = true
    ∧ trigger_hit pStopFix 20995 = true
    ∧ (_listener pStopFix envStopFix sStopFix 20995).1.done = true
    ∧ BrokerCall.cancelOrder 11 ∈ (_listener pStopFix envStopFix sStopFix 20995).2
    ∧ BrokerCall.cancelOrder 7 ∈ (_listener pStopFix envStopFix sStopFix 20995).2
    ∧ (∀ sd sz pr, BrokerCall.placeTrailingStop sd sz pr ∉
        (_listener pStopFix envStopFix sStopFix 20995).2) := by
  have h := stop_hit_priority pStopFix envStopFix sStopFix 20995 rfl
    (by with_unfolding_all decide)
  exact ⟨by with_unfolding_all decide, by with_unfolding_all decide,
    h.1, h.2.2.1 (by with_unfolding_all decide),
    h.2.2.2.1 7 rfl (by decide), h.2.1⟩

-- ── C2 ───────────────────────────────────────────────────────────────────────

/-- C2: the trailing-stop reference price the watcher computes and places on
a confirmed trigger is round_to_tick(last - atr_offset + 0.25) for a long
entry and round_to_tick(last + atr_offset - 0.25) for a short entry; at last
price 21050 and offset 10 this is 21040.25 (= 84161/4) for a long and
21059.75 (= 84239/4) for a short entry. -/
theorem trail_price_spec (p : WatcherParams) (env : TickEnv)
    (s : WatcherState) (lp : ℚ)
    (hdone : s.done = false) (hstop : stop_hit p lp = false)
    (htrig : trigger_hit p lp = true)
    (hconf : (staticAfterPoll p env (sec0 p env s).1).1.entry_still_open = false
      ∨ _grace_confirm_fill p.baseline_net env.gracePolls = true) :
    BrokerCall.placeTrailingStop (1 - p.side) p.size (trail_price p lp) ∈
        (_listener p env s lp).2
    ∧ (p.side = 0 → trail_price p lp = round_to_tick (lp - p.atr_points + 1/4))
    ∧ (p.side = 1 → trail_price p lp = round_to_tick (lp + p.atr_points - 1/4))
    ∧ trail_price pTrailFix 21050 = 84161/4
    ∧ trail_price pTrailShortFix 21050 = 84239/4 := by
  have hlong : trail_price pTrailFix 21050 = 84161/4 := by
    with_unfolding_all rfl
  have hshort : trail_price pTrailShortFix 21050 = 84239/4 := by
    with_unfolding_all rfl
  have hL : _listener p env s lp =
      ((triggerPath p env (staticAfterPoll p env (sec0 p env s).1).1 lp).1,
        (sec0 p env s).2 ++ (staticAfterPoll p env (sec0 p env s).1).2 ++
          (triggerPath p env (staticAfterPoll p env (sec0 p env s).1).1 lp).2) := by
    unfold _listener
    rw [hdone, hstop, htrig]
    simp
  refine ⟨?_, ?_, ?_, ?_, ?_⟩
  · rw [hL]
    have hm : BrokerCall.placeTrailingStop (1 - p.side) p.size
        (trail_price p lp) ∈
        (triggerPath p env (staticAfterPoll p env (sec0 p env s).1).1 lp).2 := by
      rcases ho : (staticAfterPoll p env (sec0 p env s).1).1.entry_still_open with _ | _
      · unfold triggerPath
        rw [ho]
        simpa using placeTrailer_mem p env _ lp
      · have hgrace : _grace_confirm_fill p.baseline_net env.gracePolls = true := by
          rcases hconf with hc | hc
          · rw [ho] at hc
            cases hc
          · exact hc
        unfold triggerPath
        rw [ho, hgrace]
        simp only [if_true]
        exact List.mem_append_right _ (placeTrailer_mem p env _ lp)
    exact List.mem_append_right _ hm
  · intro h
    unfold trail_price
    rw [h]
    simp
  · intro h
    unfold trail_price
    rw [h]
    simp
  · exact hlong
  · exact hshort

theorem trail_price_spec_witness :
    BrokerCall.placeTrailingStop (1 - pTrailFix.side) pTrailFix.size
        (trail_price pTrailFix 21050) ∈
      (_listener pTrailFix envTrailFix sTrailFix 21050).2
    ∧ trail_price pTrailFix 21050 = 84161/4 :=
  ⟨(trail_price_spec pTrailFix envTrailFix sTrailFix 21050 rfl
      (by with_unfolding_all rfl) (by with_unfolding_all rfl)
      (Or.inl (by with_unfolding_all rfl))).1,
    by with_unfolding_all rfl⟩

-- ── C4 (corrected) ───────────────────────────────────────────────────────────

/-- C4 counterexample: the cancellation event is set while the watcher sleeps
in its confirmation wait (doneSetDuringGrace), yet the listener, which only
reads the done event at the top of the tick and never re-reads it after
_grace_confirm_fill returns, still places the trailing stop on that tick.
The claim that the watcher observes the signal again after its confirmation
wait, and hence never places a trailing stop in this situation, is false. -/
theorem cancel_during_wait_cex :
    envCancelFix.doneSetDuringGrace = true
    ∧ BrokerCall.placeTrailingStop 1 2 (trail_price pCancelFix 21020) ∈
        (_listener pCancelFix envCancelFix sCancelFix 21020).2 := by
  constructor
  · rfl
  · rw [show (_listener pCancelFix envCancelFix sCancelFix 21020).2 =
      [BrokerCall.placeTrailingStop 1 2 (trail_price pCancelFix 21020)] from by
        with_unfolding_all rfl]
    exact List.mem_singleton.mpr rfl

/-- C4 amended: the watcher observes its cancellation signal only at the
start of each delivered tick.  Once the signal is set (by
cancel_trailing_watchers or by a stop-hit), every tick whose processing
begins afterwards makes no broker call and leaves the watcher state
unchanged, over any number of further ticks; the signal is however not
re-observed after the bounded confirmation wait, so a cancellation arriving
during that wait does not stop the in-flight tick from placing its trailing
stop. -/
theorem cancelled_watcher_inert (p : WatcherParams)
    (ticks : List (TickEnv × ℚ)) (s : WatcherState) (hdone : s.done = true) :
    runTicks p ticks s = (s, []) := by
  induction ticks with
  | nil => rfl
  | cons t rest ih =>
    obtain ⟨env, lp⟩ := t
    have h1 : _listener p env s lp = (s, []) := by
      unfold _listener
      rw [hdone]
      simp
    simp [runTicks, h1, ih]

theorem cancelled_watcher_inert_witness :
    runTicks pCancelFix [(envCancelFix, 21020), (envCancelFix, 21050)]
        { sCancelFix with done := true } =
      ({ sCancelFix with done := true }, []) :=
  cancelled_watcher_inert pCancelFix _ _ rfl

-- ── C9 (corrected) ───────────────────────────────────────────────────────────

/-- C9 counterexample: two consecutive rate-limited open-orders polls (the
second at the first instant the first backoff allows) each produce a backoff
window of exactly 3000 ms; the window does not grow, so the claimed
exponential backoff growing across consecutive rate-limit responses is false. -/
theorem rate_limit_backoff_cex :
    envRateFix1.poll = OrdersPoll.rateLimited
    ∧ envRateFix2.poll = OrdersPoll.rateLimited
    ∧ rateRun1.1.orders_backoff_until_ms - envRateFix1.now_ms = 3000
    ∧ rateRun2.1.orders_backoff_until_ms - envRateFix2.now_ms = 3000
    ∧ ¬(rateRun1.1.orders_backoff_until_ms - envRateFix1.now_ms <
        rateRun2.1.orders_backoff_until_ms - envRateFix2.now_ms) := by
  have e1 : rateRun1.1.orders_backoff_until_ms - envRateFix1.now_ms = 3000 := by
    with_unfolding_all rfl
  have e2 : rateRun2.1.orders_backoff_until_ms - envRateFix2.now_ms = 3000 := by
    with_unfolding_all rfl
  refine ⟨rfl, rfl, e1, e2, ?_⟩
  rw [e1, e2]
  exact lt_irrefl 3000

/-- C9 amended: when a due open-orders poll answers HTTP 429, the listener
leaves its belief about the entry order unchanged and sets a fixed backoff
deadline of now + 3000 ms before the next open-orders poll; the backoff
duration is the same constant on every consecutive rate-limit response. -/
theorem rate_limit_backoff_spec (p : WatcherParams) (env : TickEnv)
    (s : WatcherState) (lp : ℚ)
    (hdone : s.done = false) (hpoll : env.poll = OrdersPoll.rateLimited)
    (hb : s.orders_backoff_until_ms ≤ env.now_ms)
    (ht : (500 : ℤ) ≤ env.now_ms - s.last_orders_check_ms) :
    (_listener p env s lp).1.orders_backoff_until_ms = env.now_ms + 3000
    ∧ (_listener p env s lp).1.entry_still_open = s.entry_still_open := by
  have h0 := sec0_rateLimited p env s hpoll hb ht
  have h1 := listener_after_sec0 p env s lp hdone
  constructor
  · rw [h1.1, h0]
  · rw [h1.2, h0]

theorem rate_limit_backoff_spec_witness :
    (_listener pRateFix envRateFix1 sRateFix 100).1.orders_backoff_until_ms =
        envRateFix1.now_ms + 3000
    ∧ (_listener pRateFix envRateFix1 sRateFix 100).1.entry_still_open =
        sRateFix.entry_still_open :=
  rate_limit_backoff_spec pRateFix envRateFix1 sRateFix 100 rfl rfl
    (by decide) (by decide)

-- ── Webhook lemmas ───────────────────────────────────────────────────────────

theorem webhook_entry_reduce (env : WebhookEnv) (st : HoldoffState)
    (sig : Signal) (a : ℚ)
    (hp : env.paused = false) (hc : sig.isClose = false)
    (he : sig.isExit = false) (hatr : sig.atr = some a)
    (hd : sig.direction = "buy" ∨ sig.direction = "sell")
    (hs : 0 < sig.size) (hpr : 0 < sig.entryPrice) :
    webhook env st sig =
      if staleCheck sig st then (st, .skippedStaleVsClose, [])
      else if decide (env.now_ms < st.close_holdoff_until_ms) then
        (st, .skippedInCloseHoldoff, [])
      else entryExec env st sig := by
  have hdir : (sig.direction == "buy" || sig.direction == "sell") = true := by
    rcases hd with h | h <;> simp [h]
  have hsz : decide (sig.size ≤ 0) = false := by
    simpa using not_le.mpr hs
  have hpz : decide (sig.entryPrice ≤ 0) = false := by
    simpa using not_le.mpr hpr
  unfold webhook
  rw [hp, hc, he, hatr, hdir, hsz, hpz]
  simp

theorem entryExec_status (env : WebhookEnv) (st : HoldoffState) (sig : Signal) :
    (entryExec env st sig).2.1 ≠ WebhookResult.skippedStaleVsClose
    ∧ (entryExec env st sig).2.1 ≠ WebhookResult.skippedInCloseHoldoff := by
  unfold entryExec
  cases hl : env.limitOutcome <;> split <;> simp

-- ── C5 (corrected) ───────────────────────────────────────────────────────────

/-- C5 counterexample: an entry that is both stale (ts 4000, recorded close
ts 5000) and inside the holdoff window (now 2000 < until 10000) is rejected
with the stale-vs-close reason, not the in-close-holdoff reason, because
FAILSAFE A runs before FAILSAFE B in the webhook; the claim that every entry
arriving before holdoff-until is rejected with reason in-close-holdoff is
false at this input. -/
theorem holdoff_reason_cex :
    envWebFix.now_ms < stHoldFix.close_holdoff_until_ms
    ∧ webhook envWebFix stHoldFix sigStaleEntryFix =
        (stHoldFix, .skippedStaleVsClose, [])
    ∧ WebhookResult.skippedStaleVsClose ≠ WebhookResult.skippedInCloseHoldoff := by
  refine ⟨by decide, ?_, by decide⟩
  with_unfolding_all rfl

/-- C5 amended: a close signal processed outside the trading pause sets the
instrument's holdoff-until to now plus the fixed holdoff duration, and
records the close's timestamp when present, before the per-symbol lock is
released (the whole update happens inside the locked close path); a valid
entry signal processed outside the pause that the timestamp-staleness rule
does not already reject and that arrives while now is before holdoff-until
is rejected with reason in-close-holdoff, with no order placed and no state
change. -/
theorem close_holdoff_spec :
    (∀ env st sig, env.paused = false → sig.isClose = true →
      (webhook env st sig).1.close_holdoff_until_ms =
          env.now_ms + close_holdoff_ms
      ∧ (∀ t, sig.ts_ms = some t →
          (webhook env st sig).1.last_close_ts_ms = some t)
      ∧ (sig.ts_ms = none →
          (webhook env st sig).1.last_close_ts_ms = st.last_close_ts_ms))
    ∧ (∀ env st sig a, env.paused = false → sig.isClose = false →
        sig.isExit = false → sig.atr = some a →
        (sig.direction = "buy" ∨ sig.direction = "sell") →
        0 < sig.size → 0 < sig.entryPrice →
        staleCheck sig st = false →
        env.now_ms < st.close_holdoff_until_ms →
        webhook env st sig = (st, .skippedInCloseHoldoff, [])) := by
  constructor
  · intro env st sig hp hc
    have hw : webhook env st sig = closePath env st sig := by
      unfold webhook
      rw [hp, hc]
      simp
    rw [hw]
    refine ⟨rfl, ?_, ?_⟩
    · intro t ht
      simp [closePath, ht]
    · intro ht
      simp [closePath, ht]
  · intro env st sig a hp hc he hatr hd hs hpr hstale hhold
    have hhold' : decide (env.now_ms < st.close_holdoff_until_ms) = true :=
      decide_eq_true hhold
    rw [webhook_entry_reduce env st sig a hp hc he hatr hd hs hpr, hstale,
      hhold']
    simp

theorem close_holdoff_spec_witness :
    (webhook envWebFix st0Fix sigCloseFix).1.close_holdoff_until_ms =
        envWebFix.now_ms + close_holdoff_ms
    ∧ (webhook envWebFix st0Fix sigCloseFix).1.last_close_ts_ms = some 7777
    ∧ webhook envWebFix stHoldFix sigEntryFix =
        (stHoldFix, .skippedInCloseHoldoff, []) := by
  have h1 := close_holdoff_spec.1 envWebFix st0Fix sigCloseFix rfl rfl
  have h2 := close_holdoff_spec.2 envWebFix stHoldFix sigEntryFix 7 rfl rfl
    rfl rfl (Or.inl rfl) (by decide) (by with_unfolding_all decide) rfl
    (by decide)
  exact ⟨h1.1, h1.2.1 7777 rfl, h2⟩

-- ── C6 ───────────────────────────────────────────────────────────────────────

/-- C6: a valid entry signal carrying a timestamp no later than the
instrument's recorded close timestamp is rejected with the stale-vs-close
reason and places no order and changes no state; entries without a timestamp,
or for instruments with no recorded close timestamp, are never rejected with
that reason. -/
theorem entry_staleness_spec (env : WebhookEnv) (st : HoldoffState)
    (sig : Signal) (a : ℚ)
    (hp : env.paused = false) (hc : sig.isClose = false)
    (he : sig.isExit = false) (hatr : sig.atr = some a)
    (hd : sig.direction = "buy" ∨ sig.direction = "sell")
    (hs : 0 < sig.size) (hpr : 0 < sig.entryPrice) :
    (∀ ts lc, sig.ts_ms = some ts → st.last_close_ts_ms = some lc → ts ≤ lc →
      webhook env st sig = (st, .skippedStaleVsClose, []))
    ∧ ((sig.ts_ms = none ∨ st.last_close_ts_ms = none) →
      (webhook env st sig).2.1 ≠ WebhookResult.skippedStaleVsClose) := by
  have hred := webhook_entry_reduce env st sig a hp hc he hatr hd hs hpr
  constructor
  · intro ts lc hts hlc h
    have hstale : staleCheck sig st = true := by
      unfold staleCheck
      rw [hts, hlc]
      simpa using h
    rw [hred, hstale]
    simp
  · intro hnone
    have hstale : staleCheck sig st = false := by
      unfold staleCheck
      rcases hnone with h | h
      · rw [h]
      · rw [h]
        cases sig.ts_ms <;> rfl
    rw [hred, hstale]
    simp only [Bool.false_eq_true, if_false]
    split
    · simp
    · exact (entryExec_status env st sig).1

theorem entry_staleness_spec_witness :
    webhook envWebFix stCloseTsFix sigStaleEntryFix =
        (stCloseTsFix, .skippedStaleVsClose, [])
    ∧ (webhook envWebFix stCloseTsFix sigEntryFix).2.1 ≠
        WebhookResult.skippedStaleVsClose := by
  have h1 := entry_staleness_spec envWebFix stCloseTsFix sigStaleEntryFix 7
    rfl rfl rfl rfl (Or.inl rfl) (by decide) (by with_unfolding_all decide)
  have h2 := entry_staleness_spec envWebFix stCloseTsFix sigEntryFix 7
    rfl rfl rfl rfl (Or.inl rfl) (by decide) (by with_unfolding_all decide)
  exact ⟨h1.1 4000 5000 rfl rfl (by decide), h2.2 (Or.inl rfl)⟩

-- ── C10 ──────────────────────────────────────────────────────────────────────

/-- C10: a valid entry of size exactly 8 that passes both failsafes is
flip-split: with broker net position 0 it is downgraded to a single size-4
limit order; with nonzero net the trailing watchers, trailing stops and stop
markets of the contract are cancelled, a size-4 market order fires, and the
limit entry is placed with size 4; in neither case is a size-8 limit order
placed. -/
theorem flip_safety_spec (env : WebhookEnv) (st : HoldoffState) (sig : Signal)
    (a : ℚ)
    (hp : env.paused = false) (hc : sig.isClose = false)
    (he : sig.isExit = false) (hatr : sig.atr = some a)
    (hd : sig.direction = "buy" ∨ sig.direction = "sell")
    (hpr : 0 < sig.entryPrice) (h8 : sig.size = 8)
    (hstale : staleCheck sig st = false)
    (hhold : ¬env.now_ms < st.close_holdoff_until_ms) :
    (env.net = 0 →
      (webhook env st sig).2.2 =
        [ServerCall.placeLimitOrderCall (sideOf sig) 4
          (round_to_tick sig.entryPrice)])
    ∧ (env.net ≠ 0 →
      (webhook env st sig).2.2 =
        [ServerCall.cancelWatchersCall, ServerCall.cancelTrailingStopsCall,
         ServerCall.cancelStopMarketsCall,
         ServerCall.placeMarketOrderCall (sideOf sig) 4,
         ServerCall.placeLimitOrderCall (sideOf sig) 4
           (round_to_tick sig.entryPrice)])
    ∧ (∀ pr, ServerCall.placeLimitOrderCall (sideOf sig) 8 pr ∉
        (webhook env st sig).2.2) := by
  have hs : 0 < sig.size := by
    rw [h8]
    decide
  have hhold' : decide (env.now_ms < st.close_holdoff_until_ms) = false := by
    simpa using hhold
  have hw : webhook env st sig = entryExec env st sig := by
    rw [webhook_entry_reduce env st sig a hp hc he hatr hd hs hpr, hstale,
      hhold']
    simp
  have h8' : (sig.size == 8) = true := by
    simp [h8]
  rw [hw]
  by_cases hnet : env.net = 0
  · have hflip : entryFlip env sig (sideOf sig) = (4, []) := by
      simp [entryFlip, h8', hnet]
    have htr : (entryExec env st sig).2.2 =
        [ServerCall.placeLimitOrderCall (sideOf sig) 4
          (round_to_tick sig.entryPrice)] := by
      unfold entryExec
      rw [hflip]
      cases env.limitOutcome <;> simp
    refine ⟨fun _ => htr, fun hn => absurd hnet hn, ?_⟩
    intro pr hmem
    rw [htr] at hmem
    simp at hmem
  · have hnet' : (env.net == 0) = false := by
      simpa using hnet
    have hflip : entryFlip env sig (sideOf sig) =
        (4, [ServerCall.cancelWatchersCall, ServerCall.cancelTrailingStopsCall,
             ServerCall.cancelStopMarketsCall,
             ServerCall.placeMarketOrderCall (sideOf sig) 4]) := by
      simp [entryFlip, h8', hnet']
    have htr : (entryExec env st sig).2.2 =
        [ServerCall.cancelWatchersCall, ServerCall.cancelTrailingStopsCall,
         ServerCall.cancelStopMarketsCall,
         ServerCall.placeMarketOrderCall (sideOf sig) 4,
         ServerCall.placeLimitOrderCall (sideOf sig) 4
           (round_to_tick sig.entryPrice)] := by
      unfold entryExec
      rw [hflip]
      cases env.limitOutcome <;> simp
    refine ⟨fun h0 => absurd h0 hnet, fun _ => htr, ?_⟩
    intro pr hmem
    rw [htr] at hmem
    simp at hmem

theorem flip_safety_spec_witness :
    (webhook envWebFix st0Fix sigFlipFix).2.2 =
        [ServerCall.placeLimitOrderCall (sideOf sigFlipFix) 4
          (round_to_tick sigFlipFix.entryPrice)]
    ∧ (webhook envWebNetFix st0Fix sigFlipFix).2.2 =
        [ServerCall.cancelWatchersCall, ServerCall.cancelTrailingStopsCall,
         ServerCall.cancelStopMarketsCall,
         ServerCall.placeMarketOrderCall (sideOf sigFlipFix) 4,
         ServerCall.placeLimitOrderCall (sideOf sigFlipFix) 4
           (round_to_tick sigFlipFix.entryPrice)] := by
  have h1 := flip_safety_spec envWebFix st0Fix sigFlipFix 7 rfl rfl rfl rfl
    (Or.inr rfl) (by with_unfolding_all decide) rfl rfl (by decide)
  have h2 := flip_safety_spec envWebNetFix st0Fix sigFlipFix 7 rfl rfl rfl rfl
    (Or.inr rfl) (by with_unfolding_all decide) rfl rfl (by decide)
  exact ⟨h1.1 rfl, h2.2.1 (by decide)⟩
